import Mathlib

/-!
Shallow embedding of `src/main.py`, a single-file 3D volume viewer
(GLFW window, OpenGL slice-stack renderer, mouse orbit / scroll zoom),
together with theorems settling the specification claims about it.

Numeric conventions: Python float arithmetic is modelled exactly over `ℚ`
where only field operations occur (zoom, cursor positions, slice values),
and over `ℝ` where trigonometry occurs (quaternion construction via
`glm.angleAxis`).  Python exceptions (`ZeroDivisionError`) are modelled by
`Option`; `numpy` load routines that can raise are modelled by `Except`.
-/

namespace Viewer

/-- GLFW constant `glfw.MOUSE_BUTTON_LEFT`. -/
def MOUSE_BUTTON_LEFT : Int := 0

/-- GLFW constant `glfw.PRESS`. -/
def GLFW_PRESS : Int := 1

/-- GLFW constant `glfw.RELEASE`. -/
def GLFW_RELEASE : Int := 0

/-- Module constant `slices_width = 256`. -/
def slices_width : Nat := 256

/-- Module constant `slices_height = 256`. -/
def slices_height : Nat := 256

/-- Module constant `num_slices = 128`. -/
def num_slices : Nat := 128

/-- `glm.clamp(x, lo, hi) = min(max(x, lo), hi)`. -/
def glm_clamp (x lo hi : ℚ) : ℚ := min (max x lo) hi

/-! ## Slice compositor (`render_slices`, lines 93-121)

The GL calls are abstracted to their observable effect for the claims:
the sequence of values passed to `glUniform1f(slice_loc, ·)`, one
immediately before each `glDrawArrays` call, in issue order. -/

/-- The index sequence of the loop `for i in range(num_slices - 1, -1, -1)`:
`[n-1, n-2, ..., 0]`. -/
def sliceIndices (n : Nat) : List Nat := (List.range n).reverse

/-- One loop iteration's computation `slice_val = i / (num_slices - 1)`;
`none` models Python raising `ZeroDivisionError` when `num_slices - 1 == 0`. -/
def slice_val (n i : Nat) : Option ℚ :=
  if (n : Int) - 1 = 0 then none else some ((i : ℚ) / ((n : ℚ) - 1))

/-- `render_slices`, abstracted to the list of slice-uniform values set
before the successive draw calls (or `none` if an iteration raises). -/
def render_slices (n : Nat) : Option (List ℚ) :=
  (sliceIndices n).mapM (slice_val n)

/-! ## Volume file loading (lines 49-52 and 195-202) -/

/-- `np.frombuffer(binary_data, dtype=np.uint8)`: reinterprets the raw file
bytes as unsigned 8-bit samples.  The itemsize is 1 byte, so it succeeds on
every byte count; no failure branch exists. -/
def np_frombuffer_uint8 (contents : List Nat) : Except String (List Nat) :=
  Except.ok contents

/-- The volume-load step of `main` (lines 195-202): read the whole file,
reinterpret as uint8 samples, and hand the result to `load_3d_texture`
with the hard-coded dimensions.  No size validation is performed. -/
def main_load_volume (contents : List Nat) : Except String (List Nat) :=
  np_frombuffer_uint8 contents

/-- Grouping of the file's bytes into 4-byte (float32) items, as
`np.fromfile(file, dtype=np.float32)` does; a trailing partial item
(fewer than 4 bytes) is silently dropped. -/
def float32_chunks : List Nat → List (List Nat)
  | a :: b :: c :: d :: rest => [a, b, c, d] :: float32_chunks rest
  | _ => []

/-- `load_data_from_file` (lines 49-52): reads the whole file as a flat
array of float32 items.  It never fails on a size mismatch. -/
def load_data_from_file (contents : List Nat) : Except String (List (List Nat)) :=
  Except.ok (float32_chunks contents)

/-! ## Helper lemmas: slice values -/

/-- `mapM` over `Option` succeeds pointwise. -/
theorem list_mapM_option_eq_map {α β : Type} (f : α → Option β) (g : α → β) :
    ∀ l : List α, (∀ a ∈ l, f a = some (g a)) → l.mapM f = some (l.map g) := by
  intro l
  induction l with
  | nil => intro _; rfl
  | cons a t ih =>
    intro h
    rw [List.mapM_cons, h a (List.mem_cons_self a t),
      ih (fun b hb => h b (List.mem_cons_of_mem a hb))]
    rfl

/-- For `2 ≤ n`, no iteration of the slice loop divides by zero, and the
emitted slice values are exactly `i / (n - 1)` over the descending indices. -/
theorem render_slices_eq_map (n : Nat) (h : 2 ≤ n) :
    render_slices n = some ((sliceIndices n).map (fun i : Nat => (i : ℚ) / ((n : ℚ) - 1))) := by
  apply list_mapM_option_eq_map
  intro i _
  unfold slice_val
  rw [if_neg]
  omega

theorem float32_chunks_length : ∀ l : List Nat, (float32_chunks l).length = l.length / 4
  | [] => rfl
  | [_] => by simp [float32_chunks]
  | [_, _] => by simp [float32_chunks]
  | [_, _, _] => by simp [float32_chunks]
  | a :: b :: c :: d :: rest => by
    have ih := float32_chunks_length rest
    simp only [float32_chunks, List.length_cons, ih]
    omega

/-! ## View state and input callbacks (lines 124-176)

The global mutable state written by the GLFW callbacks and read by the
frame loop: `mouse_pressed`, `first_mouse`, `last_mouse_pos`, `rotation`,
`zoom`.  Callbacks become functions from state (plus the event's
arguments) to state. -/

/-- The process-wide mutable view state of `main.py`. -/
structure ViewState where
  mouse_pressed : Bool
  first_mouse : Bool
  last_mouse_pos : ℚ × ℚ
  rotation : Quaternion ℝ
  zoom : ℚ

/-- `rotation_speed = 0.005` (line 155). -/
def rotation_speed : ℚ := 1 / 200

/-- `zoom_sensitivity = 0.1` (line 165). -/
def zoom_sensitivity : ℚ := 1 / 10

/-- `glm.angleAxis θ (0, 1, 0)`: unit quaternion for a rotation of `θ`
radians about the vertical (y) axis. -/
noncomputable def angleAxisY (θ : ℝ) : Quaternion ℝ :=
  ⟨Real.cos (θ / 2), 0, Real.sin (θ / 2), 0⟩

/-- `glm.angleAxis θ (1, 0, 0)`: unit quaternion for a rotation of `θ`
radians about the horizontal (x) axis. -/
noncomputable def angleAxisX (θ : ℝ) : Quaternion ℝ :=
  ⟨Real.cos (θ / 2), Real.sin (θ / 2), 0, 0⟩

/-- `glm.normalize` on quaternions: divide by the Euclidean length. -/
noncomputable def qnormalize (q : Quaternion ℝ) : Quaternion ℝ := ‖q‖⁻¹ • q

/-- `mouse_callback` (lines 139-160): the cursor-position handler. -/
noncomputable def mouse_callback (s : ViewState) (xpos ypos : ℚ) : ViewState :=
  if s.mouse_pressed = false then s
  else if s.first_mouse = true then
    { s with last_mouse_pos := (xpos, ypos), first_mouse := false }
  else
    let dx : ℚ := xpos - s.last_mouse_pos.1
    let dy : ℚ := ypos - s.last_mouse_pos.2
    let yaw_quat := angleAxisY ((dx * rotation_speed : ℚ) : ℝ)
    let pitch_quat := angleAxisX ((dy * rotation_speed : ℚ) : ℝ)
    { s with last_mouse_pos := (xpos, ypos),
             rotation := qnormalize (yaw_quat * pitch_quat * s.rotation) }

/-- `mouse_button_callback` (lines 124-131). -/
def mouse_button_callback (s : ViewState) (button action : Int) : ViewState :=
  if button = MOUSE_BUTTON_LEFT then
    if action = GLFW_PRESS then { s with mouse_pressed := true }
    else if action = GLFW_RELEASE then
      { s with mouse_pressed := false, first_mouse := true }
    else s
  else s

/-- `scroll_callback` (lines 163-167). -/
def scroll_callback (s : ViewState) (xoffset yoffset : ℚ) : ViewState :=
  { s with zoom := glm_clamp (s.zoom - yoffset * zoom_sensitivity) (1 / 2) 5 }

/-- An input event delivered by GLFW to one of the three state-mutating
callbacks. -/
inductive Event where
  | mouse_button (button action : Int)
  | cursor_pos (xpos ypos : ℚ)
  | scroll (xoffset yoffset : ℚ)

/-- Dispatch of one event to its callback. -/
noncomputable def handle (s : ViewState) : Event → ViewState
  | .mouse_button b a => mouse_button_callback s b a
  | .cursor_pos x y => mouse_callback s x y
  | .scroll xo yo => scroll_callback s xo yo

/-- Sequential processing of an event list (events are delivered one at a
time on the single thread). -/
noncomputable def applyEvents (s : ViewState) (evs : List Event) : ViewState :=
  evs.foldl handle s

/-- The initial global state set at the top of `main` (lines 172-176). -/
noncomputable def initState : ViewState :=
  { mouse_pressed := false
    first_mouse := true
    last_mouse_pos := ((slices_width : ℚ) / 2, (slices_height : ℚ) / 2)
    rotation := ⟨1, 0, 0, 0⟩
    zoom := 15 / 4 }

/-- Left-button press events, the only events handled by the `PRESS`
branch of `mouse_button_callback`. -/
def isLeftPress : Event → Bool
  | .mouse_button b a => b = MOUSE_BUTTON_LEFT && a = GLFW_PRESS
  | _ => false

/-- The per-move pixel deltas of a drag, as `mouse_callback` computes them
from successive cursor positions. -/
def move_deltas : ℚ × ℚ → List (ℚ × ℚ) → List (ℚ × ℚ)
  | _, [] => []
  | prev, p :: rest => (p.1 - prev.1, p.2 - prev.2) :: move_deltas p rest

/-- The total pixel delta of a drag: the componentwise sum of the per-move
deltas from the reference position through the listed positions. -/
def total_delta (start : ℚ × ℚ) (moves : List (ℚ × ℚ)) : ℚ × ℚ :=
  (((move_deltas start moves).map Prod.fst).sum,
   ((move_deltas start moves).map Prod.snd).sum)

/-! ## Helper lemmas: quaternions -/

theorem normSq_angleAxisY (θ : ℝ) : Quaternion.normSq (angleAxisY θ) = 1 := by
  rw [angleAxisY, Quaternion.normSq_def']
  have h := Real.sin_sq_add_cos_sq (θ / 2)
  ring_nf
  ring_nf at h
  linarith

theorem normSq_angleAxisX (θ : ℝ) : Quaternion.normSq (angleAxisX θ) = 1 := by
  rw [angleAxisX, Quaternion.normSq_def']
  have h := Real.sin_sq_add_cos_sq (θ / 2)
  ring_nf
  ring_nf at h
  linarith

theorem norm_eq_one_of_normSq (q : Quaternion ℝ) (h : Quaternion.normSq q = 1) :
    ‖q‖ = 1 := by
  have h2 : ‖q‖ * ‖q‖ = 1 := by rw [← Quaternion.normSq_eq_norm_mul_self, h]
  nlinarith [norm_nonneg q]

theorem norm_angleAxisY (θ : ℝ) : ‖angleAxisY θ‖ = 1 :=
  norm_eq_one_of_normSq _ (normSq_angleAxisY θ)

theorem norm_angleAxisX (θ : ℝ) : ‖angleAxisX θ‖ = 1 :=
  norm_eq_one_of_normSq _ (normSq_angleAxisX θ)

theorem qnormalize_of_norm_one (q : Quaternion ℝ) (h : ‖q‖ = 1) :
    qnormalize q = q := by
  rw [qnormalize, h, inv_one, one_smul]

/-- The identity quaternion `glm.quat(1, 0, 0, 0)` is the multiplicative unit. -/
theorem quat_one_eq : (⟨1, 0, 0, 0⟩ : Quaternion ℝ) = 1 := rfl

/-- A zero-angle yaw is the identity rotation. -/
theorem angleAxisY_zero : angleAxisY 0 = 1 := by
  rw [angleAxisY, ← quat_one_eq]
  norm_num

/-- A zero-angle pitch is the identity rotation. -/
theorem angleAxisX_zero : angleAxisX 0 = 1 := by
  rw [angleAxisX, ← quat_one_eq]
  norm_num

/-- Yaw rotations about the fixed vertical axis compose by adding angles. -/
theorem angleAxisY_mul (α β : ℝ) :
    angleAxisY α * angleAxisY β = angleAxisY (α + β) := by
  rw [angleAxisY, angleAxisY, angleAxisY]
  have hd : (α + β) / 2 = α / 2 + β / 2 := by ring
  apply Quaternion.ext <;>
    simp [Quaternion.mul_re, Quaternion.mul_imI, Quaternion.mul_imJ,
      Quaternion.mul_imK, hd, Real.cos_add, Real.sin_add] <;> ring

/-! ## Helper lemmas: input callbacks -/

/-- A cursor move while the button is up returns before any mutation. -/
theorem mouse_callback_not_pressed (s : ViewState) (x y : ℚ)
    (h : s.mouse_pressed = false) : mouse_callback s x y = s := by
  simp [mouse_callback, h]

/-- The reference-only branch: while dragging with the fresh-reference flag
armed, a move stores the position and disarms the flag, nothing else. -/
theorem mouse_callback_first (s : ViewState) (x y : ℚ)
    (hp : s.mouse_pressed = true) (hf : s.first_mouse = true) :
    mouse_callback s x y = { s with last_mouse_pos := (x, y), first_mouse := false } := by
  simp [mouse_callback, hp, hf]

/-- The rotating branch: while dragging with an established reference, a
move composes yaw and pitch increments onto the orientation. -/
theorem mouse_callback_drag (s : ViewState) (x y : ℚ)
    (hp : s.mouse_pressed = true) (hf : s.first_mouse = false) :
    mouse_callback s x y =
      { s with last_mouse_pos := (x, y),
               rotation := qnormalize
                 (angleAxisY (((x - s.last_mouse_pos.1) * rotation_speed : ℚ) : ℝ) *
                  angleAxisX (((y - s.last_mouse_pos.2) * rotation_speed : ℚ) : ℝ) *
                  s.rotation) } := by
  simp [mouse_callback, hp, hf]

/-- A left-button press sets `mouse_pressed` and touches nothing else. -/
theorem press_effect (s : ViewState) :
    mouse_button_callback s MOUSE_BUTTON_LEFT GLFW_PRESS =
      { s with mouse_pressed := true } := by
  simp [mouse_button_callback]

/-- A left-button release clears `mouse_pressed` and arms `first_mouse`. -/
theorem release_effect (s : ViewState) :
    mouse_button_callback s MOUSE_BUTTON_LEFT GLFW_RELEASE =
      { s with mouse_pressed := false, first_mouse := true } := by
  simp [mouse_button_callback, MOUSE_BUTTON_LEFT, GLFW_PRESS, GLFW_RELEASE]

/-- The armed property: whenever the button is up, the fresh-reference flag
is set. -/
def Armed (s : ViewState) : Prop :=
  s.mouse_pressed = false → s.first_mouse = true

theorem armed_handle (s : ViewState) (e : Event) (h : Armed s) :
    Armed (handle s e) := by
  cases e with
  | mouse_button b a =>
    simp only [handle, mouse_button_callback]
    split_ifs <;> intro hc <;> simp_all [Armed]
  | cursor_pos x y =>
    simp only [handle, mouse_callback]
    split_ifs with h1 h2 <;> intro hc <;> simp_all [Armed]
  | scroll xo yo =>
    simp only [handle, scroll_callback]
    intro hc
    exact h hc

theorem armed_applyEvents (evs : List Event) (s : ViewState) (h : Armed s) :
    Armed (applyEvents s evs) := by
  induction evs generalizing s with
  | nil => exact h
  | cons e t ih =>
    simp only [applyEvents, List.foldl_cons] at *
    exact ih _ (armed_handle s e h)

/-- Between a release and the next left press, the button stays up and the
fresh-reference flag stays armed. -/
theorem released_stays_armed (s : ViewState) (e : Event)
    (hq : s.mouse_pressed = false ∧ s.first_mouse = true)
    (he : isLeftPress e = false) :
    (handle s e).mouse_pressed = false ∧ (handle s e).first_mouse = true := by
  cases e with
  | mouse_button b a =>
    simp only [isLeftPress, Bool.and_eq_false_iff, decide_eq_false_iff_not] at he
    simp only [handle, mouse_button_callback]
    split_ifs with h1 h2 h3 <;> simp_all
  | cursor_pos x y =>
    rw [handle, mouse_callback_not_pressed s x y hq.1]
    exact hq
  | scroll xo yo =>
    simp only [handle, scroll_callback]
    exact hq

theorem released_armed_applyEvents (mid : List Event) (s : ViewState)
    (hq : s.mouse_pressed = false ∧ s.first_mouse = true)
    (h : ∀ e ∈ mid, isLeftPress e = false) :
    (applyEvents s mid).mouse_pressed = false ∧
      (applyEvents s mid).first_mouse = true := by
  induction mid generalizing s with
  | nil => exact hq
  | cons e t ih =>
    simp only [applyEvents, List.foldl_cons] at *
    exact ih _ (released_stays_armed s e hq (h e (List.mem_cons_self e t)))
      (fun x hx => h x (List.mem_cons_of_mem e hx))

theorem applyEvents_cons (s : ViewState) (e : Event) (t : List Event) :
    applyEvents s (e :: t) = applyEvents (handle s e) t := rfl

/-- A dragging state: button held, reference point `(0, 0)` established,
identity orientation; reached from `initState` by a left press followed by
a reference move to the origin (see `dragStart_reachable`). -/
noncomputable def dragStart : ViewState :=
  { mouse_pressed := true, first_mouse := false, last_mouse_pos := (0, 0),
    rotation := ⟨1, 0, 0, 0⟩, zoom := 15 / 4 }

theorem dragStart_reachable :
    applyEvents initState
      [Event.mouse_button MOUSE_BUTTON_LEFT GLFW_PRESS, Event.cursor_pos 0 0] =
      dragStart := by
  simp only [applyEvents, List.foldl_cons, List.foldl_nil, handle]
  rw [press_effect, mouse_callback_first _ _ _ rfl rfl]
  rfl

/-- A purely horizontal drag from reference `x0` through the positions `xs`
(all at the reference height `y0`) rotates the starting orientation by the
yaw of the total horizontal delta, and by nothing else. -/
theorem horizontal_drag_rotation (y0 z : ℚ) (xs : List ℚ) :
    ∀ (x0 : ℚ) (r : Quaternion ℝ), ‖r‖ = 1 →
      (applyEvents ⟨true, false, (x0, y0), r, z⟩
          (xs.map (fun x => Event.cursor_pos x y0))).rotation =
        angleAxisY (((xs.getLastD x0 - x0) * rotation_speed : ℚ) : ℝ) * r := by
  induction xs with
  | nil =>
    intro x0 r _
    simp only [List.map_nil, applyEvents, List.foldl_nil, List.getLastD]
    rw [show ((x0 - x0) * rotation_speed : ℚ) = 0 by ring]
    rw [Rat.cast_zero, angleAxisY_zero, one_mul]
  | cons x xs ih =>
    intro x0 r hr
    have hyr : ‖angleAxisY (((x - x0) * rotation_speed : ℚ) : ℝ) * r‖ = 1 := by
      rw [norm_mul, norm_angleAxisY, hr, one_mul]
    have hstep : mouse_callback ⟨true, false, (x0, y0), r, z⟩ x y0 =
        ⟨true, false, (x, y0),
          angleAxisY (((x - x0) * rotation_speed : ℚ) : ℝ) * r, z⟩ := by
      rw [mouse_callback_drag _ _ _ rfl rfl]
      have h0 : ((y0 - (⟨true, false, (x0, y0), r, z⟩ : ViewState).last_mouse_pos.2) *
          rotation_speed : ℚ) = 0 := by
        show ((y0 - y0) * rotation_speed : ℚ) = 0
        ring
      rw [h0, Rat.cast_zero, angleAxisX_zero, mul_one,
        qnormalize_of_norm_one _ hyr]
    rw [List.map_cons, applyEvents_cons]
    show (applyEvents (mouse_callback ⟨true, false, (x0, y0), r, z⟩ x y0)
      (xs.map (fun x => Event.cursor_pos x y0))).rotation = _
    rw [hstep, ih x _ hyr, ← mul_assoc, angleAxisY_mul, List.getLastD_cons]
    congr 2
    push_cast
    ring

/-! ## Helper lemmas: zoom -/

theorem scroll_zoom_bounds (s : ViewState) (xo yo : ℚ) :
    1 / 2 ≤ (scroll_callback s xo yo).zoom ∧ (scroll_callback s xo yo).zoom ≤ 5 := by
  simp only [scroll_callback, glm_clamp]
  constructor
  · exact le_min (le_max_right _ _) (by norm_num)
  · exact min_le_right _ _

theorem foldl_scroll_bounds (offsets : List (ℚ × ℚ)) :
    ∀ s : ViewState, 1 / 2 ≤ s.zoom → s.zoom ≤ 5 →
      1 / 2 ≤ (offsets.foldl (fun s o => scroll_callback s o.1 o.2) s).zoom ∧
        (offsets.foldl (fun s o => scroll_callback s o.1 o.2) s).zoom ≤ 5 := by
  induction offsets with
  | nil => intro s h1 h2; exact ⟨h1, h2⟩
  | cons o t ih =>
    intro s _ _
    rw [List.foldl_cons]
    exact ih _ (scroll_zoom_bounds s o.1 o.2).1 (scroll_zoom_bounds s o.1 o.2).2

/-! ## The claims -/

/-- Claim C3 (counterexample): a 1-byte volume file, whose byte count does
not equal `width*height*depth*elementSize`, is loaded successfully with no
failure and no diagnostic — the mismatched data is passed through to the
texture upload unvalidated. -/
theorem C3_counterexample :
    main_load_volume [0] = Except.ok [0] ∧
      ([0] : List Nat).length ≠ slices_width * slices_height * num_slices * 1 :=
  ⟨rfl, by decide⟩

/-- Claim C3 (amended): loading performs no size validation.  A file whose
byte count differs from `width*height*depth*elementSize` is accepted: the
uint8 path of `main` returns every byte unvalidated, and the float32 path
`load_data_from_file` silently truncates to `⌊bytes/4⌋` whole elements. -/
theorem C3_amended_no_size_validation (contents : List Nat)
    (h : contents.length ≠ slices_width * slices_height * num_slices * 1) :
    main_load_volume contents = Except.ok contents ∧
      load_data_from_file contents = Except.ok (float32_chunks contents) ∧
      (float32_chunks contents).length = contents.length / 4 :=
  ⟨rfl, rfl, float32_chunks_length contents⟩

/-- Witness for the amended C3 at a concrete 5-byte file. -/
theorem C3_amended_witness :
    ([1, 2, 3, 4, 5] : List Nat).length ≠ slices_width * slices_height * num_slices * 1 ∧
      (main_load_volume [1, 2, 3, 4, 5] = Except.ok [1, 2, 3, 4, 5] ∧
        load_data_from_file [1, 2, 3, 4, 5] = Except.ok (float32_chunks [1, 2, 3, 4, 5]) ∧
        (float32_chunks [1, 2, 3, 4, 5]).length = ([1, 2, 3, 4, 5] : List Nat).length / 4) :=
  ⟨by decide, C3_amended_no_size_validation [1, 2, 3, 4, 5] (by decide)⟩

/-- Claim C4: starting from the initial zoom value 3.75, after every finite
sequence of scroll events processed by `scroll_callback` (with arbitrary
offsets), the zoom scalar lies within `[0.5, 5.0]`. -/
theorem C4_zoom_always_clamped (offsets : List (ℚ × ℚ)) :
    1 / 2 ≤ (offsets.foldl (fun s o => scroll_callback s o.1 o.2) initState).zoom ∧
      (offsets.foldl (fun s o => scroll_callback s o.1 o.2) initState).zoom ≤ 5 :=
  foldl_scroll_bounds offsets initState (by norm_num [initState]) (by norm_num [initState])

/-- Claim C5: for every event sequence in which the left button is released
and — after arbitrary intervening events containing no left press — pressed
again, the first cursor move after the re-press is reference-only: it
stores the new cursor position and disarms the fresh-reference flag, and
leaves the rotation quaternion (and every other field) unchanged. -/
theorem C5_first_move_after_repress (s : ViewState) (mid : List Event) (x y : ℚ)
    (h : ∀ e ∈ mid, isLeftPress e = false) :
    mouse_callback
        (mouse_button_callback
          (applyEvents (mouse_button_callback s MOUSE_BUTTON_LEFT GLFW_RELEASE) mid)
          MOUSE_BUTTON_LEFT GLFW_PRESS) x y =
      { mouse_button_callback
          (applyEvents (mouse_button_callback s MOUSE_BUTTON_LEFT GLFW_RELEASE) mid)
          MOUSE_BUTTON_LEFT GLFW_PRESS with
        last_mouse_pos := (x, y), first_mouse := false } := by
  have hq := released_armed_applyEvents mid
    (mouse_button_callback s MOUSE_BUTTON_LEFT GLFW_RELEASE)
    (by rw [release_effect]; exact ⟨rfl, rfl⟩) h
  apply mouse_callback_first
  · rw [press_effect]
  · rw [press_effect]
    exact hq.2

/-- Witness for C5: release, an intervening scroll, re-press, then a move
to (7, 9). -/
theorem C5_witness :
    (∀ e ∈ ([Event.scroll 0 1] : List Event), isLeftPress e = false) ∧
      mouse_callback
          (mouse_button_callback
            (applyEvents (mouse_button_callback initState MOUSE_BUTTON_LEFT GLFW_RELEASE)
              [Event.scroll 0 1])
            MOUSE_BUTTON_LEFT GLFW_PRESS) 7 9 =
        { mouse_button_callback
            (applyEvents (mouse_button_callback initState MOUSE_BUTTON_LEFT GLFW_RELEASE)
              [Event.scroll 0 1])
            MOUSE_BUTTON_LEFT GLFW_PRESS with
          last_mouse_pos := (7, 9), first_mouse := false } :=
  ⟨by simp [isLeftPress], C5_first_move_after_repress initState [Event.scroll 0 1] 7 9
    (by simp [isLeftPress])⟩

/-- Claim C6 (counterexample): in the reachable state `dragStart` (left
press, then a reference move) the fresh-reference flag is down; a left
press delivered there enters the dragging state but leaves the flag down —
the press handler itself does not set the fresh-reference flag. -/
theorem C6_counterexample :
    applyEvents initState
        [Event.mouse_button MOUSE_BUTTON_LEFT GLFW_PRESS, Event.cursor_pos 0 0] =
        dragStart ∧
      (mouse_button_callback dragStart MOUSE_BUTTON_LEFT GLFW_PRESS).mouse_pressed = true ∧
      (mouse_button_callback dragStart MOUSE_BUTTON_LEFT GLFW_PRESS).first_mouse = false := by
  refine ⟨dragStart_reachable, ?_, ?_⟩ <;> rw [press_effect] <;> rfl

/-- Claim C6 (amended): on a left press the controller enters the dragging
state; the press handler leaves the fresh-reference flag (and every field
other than `mouse_pressed`) unchanged.  The next move is nevertheless
treated as a fresh reference for presses occurring in normal operation,
because initialization and every release arm the flag: in every state
reachable from `initState`, if the button is up the flag is set. -/
theorem C6_amended_press_semantics (s : ViewState) (evs : List Event) :
    mouse_button_callback s MOUSE_BUTTON_LEFT GLFW_PRESS =
        { s with mouse_pressed := true } ∧
      ((applyEvents initState evs).mouse_pressed = false →
        (applyEvents initState evs).first_mouse = true) :=
  ⟨press_effect s, armed_applyEvents evs initState (fun _ => rfl)⟩

/-- Witness for the amended C6 at the initial state and the empty history. -/
theorem C6_amended_witness :
    mouse_button_callback initState MOUSE_BUTTON_LEFT GLFW_PRESS =
        { initState with mouse_pressed := true } ∧
      (applyEvents initState []).first_mouse = true :=
  ⟨(C6_amended_press_semantics initState []).1,
    (C6_amended_press_semantics initState []).2 rfl⟩

/-- Claim C8: three scroll events of `yoffset = 1` at sensitivity 0.1 from
the starting zoom 3.75 yield exactly 3.45, and the clamp to `[0.5, 5.0]`
is the identity on every intermediate value (3.65, 3.55, 3.45). -/
theorem C8_three_scrolls :
    (scroll_callback (scroll_callback (scroll_callback initState 0 1) 0 1) 0 1).zoom
        = 3.45 ∧
      glm_clamp (15 / 4 - 1 * zoom_sensitivity) (1 / 2) 5 =
        15 / 4 - 1 * zoom_sensitivity ∧
      glm_clamp (73 / 20 - 1 * zoom_sensitivity) (1 / 2) 5 =
        73 / 20 - 1 * zoom_sensitivity ∧
      glm_clamp (71 / 20 - 1 * zoom_sensitivity) (1 / 2) 5 =
        71 / 20 - 1 * zoom_sensitivity := by
  refine ⟨?_, ?_, ?_, ?_⟩ <;>
    norm_num [scroll_callback, glm_clamp, initState, zoom_sensitivity]

/-- Claim C9: `render_slices` requires `N ≥ 2`: under that precondition
every division `i / (N-1)` is well-defined and the division-by-zero branch
is unreachable (the render returns all `N` slice values); for `N = 1` the
division is not defined (`ZeroDivisionError`, modelled as `none`). -/
theorem C9_division_guard (n : Nat) :
    (2 ≤ n → render_slices n =
        some ((sliceIndices n).map (fun i : Nat => (i : ℚ) / ((n : ℚ) - 1)))) ∧
      render_slices 1 = none :=
  ⟨fun h => render_slices_eq_map n h, rfl⟩

/-- Witness for C9 at `N = 2`. -/
theorem C9_witness :
    render_slices 2 =
        some ((sliceIndices 2).map (fun i : Nat => (i : ℚ) / ((2 : ℚ) - 1))) ∧
      render_slices 1 = none :=
  ⟨(C9_division_guard 2).1 (by decide), (C9_division_guard 2).2⟩

/-- Claim C10: a cursor move processed while the left button is not pressed
leaves the entire view state unchanged — rotation, stored cursor position,
fresh-reference flag and zoom all keep their values (the handler returns
before any mutation). -/
theorem C10_move_while_released_is_noop (s : ViewState) (x y : ℚ)
    (h : s.mouse_pressed = false) : mouse_callback s x y = s :=
  mouse_callback_not_pressed s x y h

/-- Witness for C10 at the initial state. -/
theorem C10_witness :
    initState.mouse_pressed = false ∧ mouse_callback initState 3 4 = initState :=
  ⟨rfl, C10_move_while_released_is_noop initState 3 4 rfl⟩

/-! ## Claim C1: the emitted slice values -/

/-- The list of slice-uniform values the loop computes when no iteration
raises: `i / (n - 1)` over the descending indices `n-1, ..., 0`. -/
def sliceVals (n : Nat) : List ℚ :=
  (sliceIndices n).map (fun i : Nat => (i : ℚ) / ((n : ℚ) - 1))

theorem sliceVals_getElem (n k : Nat) (hk : k < n) :
    (sliceVals n)[k]? = some (((n - 1 - k : Nat) : ℚ) / ((n : ℚ) - 1)) := by
  unfold sliceVals sliceIndices
  rw [List.getElem?_map, List.getElem?_reverse (by simpa using hk),
    List.length_range, List.getElem?_range (by omega)]
  rfl

theorem sliceVals_length (n : Nat) : (sliceVals n).length = n := by
  simp [sliceVals, sliceIndices]

theorem sliceVals_cast_sub (n k : Nat) (hk : 1 + k ≤ n) :
    ((n - 1 - k : Nat) : ℚ) = (n : ℚ) - 1 - (k : ℚ) := by
  rw [Nat.sub_sub, Nat.cast_sub hk]
  push_cast
  ring

/-- Claim C1: for every integer slice count `N ≥ 2`, `render_slices` issues
exactly `N` draw calls; the `k`-th (0-based) draw uses slice index
`N-1-k` — so indices run in strictly decreasing order `N-1, ..., 0` — and
sets the slice uniform to exactly `i/(N-1)`.  The emitted depth values have
length `N`, start at 1, end at 0, lie in `[0,1]`, strictly decrease, and
consecutive values differ by exactly `1/(N-1)` (even spacing). -/
theorem C1_render_slices_draws (n : Nat) (h : 2 ≤ n) :
    render_slices n = some (sliceVals n) ∧
      (sliceVals n).length = n ∧
      (∀ k, k < n → (sliceVals n)[k]? = some (((n - 1 - k : Nat) : ℚ) / ((n : ℚ) - 1))) ∧
      (sliceVals n).head? = some 1 ∧
      (sliceVals n).getLast? = some 0 ∧
      (∀ v ∈ sliceVals n, 0 ≤ v ∧ v ≤ 1) ∧
      (sliceVals n).Pairwise (fun a b => b < a) ∧
      (∀ k a b, (sliceVals n)[k]? = some a → (sliceVals n)[k + 1]? = some b →
        a - b = 1 / ((n : ℚ) - 1)) := by
  have hn1 : (0 : ℚ) < (n : ℚ) - 1 := by
    have : (2 : ℚ) ≤ (n : ℚ) := by exact_mod_cast h
    linarith
  refine ⟨render_slices_eq_map n h, sliceVals_length n,
    fun k hk => sliceVals_getElem n k hk, ?head, ?last, ?bounds, ?anti, ?spacing⟩
  case head =>
    rw [List.head?_eq_getElem?, sliceVals_getElem n 0 (by omega)]
    rw [sliceVals_cast_sub n 0 (by omega)]
    rw [Nat.cast_zero, sub_zero, div_self (ne_of_gt hn1)]
  case last =>
    rw [List.getLast?_eq_getElem?, sliceVals_length,
      sliceVals_getElem n (n - 1) (by omega)]
    rw [Nat.sub_self, Nat.cast_zero, zero_div]
  case bounds =>
    intro v hv
    simp only [sliceVals, sliceIndices, List.mem_map, List.mem_reverse,
      List.mem_range] at hv
    obtain ⟨i, hi, rfl⟩ := hv
    constructor
    · exact div_nonneg (by positivity) (le_of_lt hn1)
    · rw [div_le_one hn1]
      have : (i : ℚ) + 1 ≤ (n : ℚ) := by exact_mod_cast hi
      linarith
  case anti =>
    unfold sliceVals sliceIndices
    rw [List.map_reverse, List.pairwise_reverse, List.pairwise_map]
    refine List.Pairwise.imp ?_ (List.pairwise_lt_range n)
    intro a b hab
    exact (div_lt_div_right hn1).mpr (by exact_mod_cast hab)
  case spacing =>
    intro k a b ha hb
    have hk1 : k + 1 < n := by
      by_contra hk
      rw [List.getElem?_eq_none (by rw [sliceVals_length]; omega)] at hb
      exact Option.noConfusion hb
    rw [sliceVals_getElem n k (by omega)] at ha
    rw [sliceVals_getElem n (k + 1) hk1] at hb
    have ea : a = ((n - 1 - k : Nat) : ℚ) / ((n : ℚ) - 1) := (Option.some.inj ha).symm
    have eb : b = ((n - 1 - (k + 1) : Nat) : ℚ) / ((n : ℚ) - 1) := (Option.some.inj hb).symm
    rw [ea, eb, sliceVals_cast_sub n k (by omega), sliceVals_cast_sub n (k + 1) (by omega),
      div_sub_div_same]
    congr 1
    push_cast
    ring

/-- Witness for C1 at `N = 3`. -/
theorem C1_witness :
    2 ≤ 3 ∧
      (render_slices 3 = some (sliceVals 3) ∧
        (sliceVals 3).length = 3 ∧
        (∀ k, k < 3 → (sliceVals 3)[k]? = some (((3 - 1 - k : Nat) : ℚ) / ((3 : ℚ) - 1))) ∧
        (sliceVals 3).head? = some 1 ∧
        (sliceVals 3).getLast? = some 0 ∧
        (∀ v ∈ sliceVals 3, 0 ≤ v ∧ v ≤ 1) ∧
        (sliceVals 3).Pairwise (fun a b => b < a) ∧
        (∀ k a b, (sliceVals 3)[k]? = some a → (sliceVals 3)[k + 1]? = some b →
          a - b = 1 / ((3 : ℚ) - 1))) :=
  ⟨by decide, C1_render_slices_draws 3 (by decide)⟩

/-! ## Claims C2 and C7: drag rotation -/

/-- Claim C7: starting from the identity orientation (`dragStart`), a drag
whose total pixel delta is (+100, 0) at rotation sensitivity 0.005 yields
exactly the yaw `angleAxisY 0.5` about the vertical axis; the pitch-axis
and roll-axis imaginary parts of the result are zero, and the result is a
unit quaternion (re-normalized). -/
theorem C7_yaw_scenario :
    (applyEvents dragStart [Event.cursor_pos 100 0]).rotation =
        angleAxisY (1 / 2 : ℝ) ∧
      (applyEvents dragStart [Event.cursor_pos 100 0]).rotation.imI = 0 ∧
      (applyEvents dragStart [Event.cursor_pos 100 0]).rotation.imK = 0 ∧
      ‖(applyEvents dragStart [Event.cursor_pos 100 0]).rotation‖ = 1 := by
  have hmain : (applyEvents dragStart [Event.cursor_pos 100 0]).rotation =
      angleAxisY (1 / 2 : ℝ) := by
    rw [applyEvents_cons]
    show (mouse_callback dragStart 100 0).rotation = _
    rw [mouse_callback_drag _ _ _ rfl rfl]
    show qnormalize
        (angleAxisY (((100 - (0 : ℚ)) * rotation_speed : ℚ) : ℝ) *
          angleAxisX (((0 - (0 : ℚ)) * rotation_speed : ℚ) : ℝ) *
          (1 : Quaternion ℝ)) = _
    rw [show ((100 - (0 : ℚ)) * rotation_speed : ℚ) = 1 / 2 by norm_num [rotation_speed],
      show ((0 - (0 : ℚ)) * rotation_speed : ℚ) = 0 by ring,
      Rat.cast_zero, angleAxisX_zero, mul_one, mul_one,
      qnormalize_of_norm_one _ (norm_angleAxisY _)]
    norm_num
  refine ⟨hmain, ?_, ?_, ?_⟩
  · rw [hmain]; rfl
  · rw [hmain]; rfl
  · rw [hmain]; exact norm_angleAxisY _

/-- Claim C2 (counterexample): two drags from the dragging state
`dragStart` with the same total pixel delta (100, 100) — one as a single
move event, the other split into (100, 0) then (100, 100) — end in
different orientations: the yaw and pitch increments do not commute, and
the discrepancy is algebraic, not a floating-point tolerance. -/
theorem C2_counterexample :
    total_delta (0, 0) [(100, 100)] = total_delta (0, 0) [(100, 0), (100, 100)] ∧
      (applyEvents dragStart [Event.cursor_pos 100 100]).rotation ≠
        (applyEvents dragStart [Event.cursor_pos 100 0,
          Event.cursor_pos 100 100]).rotation := by
  refine ⟨by simp [total_delta, move_deltas], ?_⟩
  have hA : (applyEvents dragStart [Event.cursor_pos 100 100]).rotation =
      angleAxisY (1 / 2 : ℝ) * angleAxisX (1 / 2 : ℝ) := by
    rw [applyEvents_cons]
    show (mouse_callback dragStart 100 100).rotation = _
    rw [mouse_callback_drag _ _ _ rfl rfl]
    show qnormalize
        (angleAxisY (((100 - (0 : ℚ)) * rotation_speed : ℚ) : ℝ) *
          angleAxisX (((100 - (0 : ℚ)) * rotation_speed : ℚ) : ℝ) *
          (1 : Quaternion ℝ)) = _
    rw [show ((100 - (0 : ℚ)) * rotation_speed : ℚ) = 1 / 2 by norm_num [rotation_speed],
      mul_one,
      qnormalize_of_norm_one _ (by
        rw [norm_mul, norm_angleAxisY, norm_angleAxisX, mul_one])]
    norm_num
  have hstep1 : mouse_callback dragStart 100 0 =
      ⟨true, false, (100, 0), angleAxisY (1 / 2 : ℝ), 15 / 4⟩ := by
    rw [mouse_callback_drag _ _ _ rfl rfl]
    show ViewState.mk true false (100, 0)
        (qnormalize
          (angleAxisY (((100 - (0 : ℚ)) * rotation_speed : ℚ) : ℝ) *
            angleAxisX (((0 - (0 : ℚ)) * rotation_speed : ℚ) : ℝ) *
            (1 : Quaternion ℝ))) (15 / 4) = _
    rw [show ((100 - (0 : ℚ)) * rotation_speed : ℚ) = 1 / 2 by norm_num [rotation_speed],
      show ((0 - (0 : ℚ)) * rotation_speed : ℚ) = 0 by ring,
      Rat.cast_zero, angleAxisX_zero, mul_one, mul_one,
      qnormalize_of_norm_one _ (norm_angleAxisY _)]
    norm_num
  have hB : (applyEvents dragStart [Event.cursor_pos 100 0,
      Event.cursor_pos 100 100]).rotation =
      angleAxisX (1 / 2 : ℝ) * angleAxisY (1 / 2 : ℝ) := by
    rw [applyEvents_cons]
    show (applyEvents (mouse_callback dragStart 100 0) [Event.cursor_pos 100 100]).rotation = _
    rw [hstep1, applyEvents_cons]
    show (mouse_callback ⟨true, false, (100, 0), angleAxisY (1 / 2 : ℝ), 15 / 4⟩
      100 100).rotation = _
    rw [mouse_callback_drag _ _ _ rfl rfl]
    show qnormalize
        (angleAxisY (((100 - (100 : ℚ)) * rotation_speed : ℚ) : ℝ) *
          angleAxisX (((100 - (0 : ℚ)) * rotation_speed : ℚ) : ℝ) *
          angleAxisY (1 / 2 : ℝ)) = _
    rw [show ((100 - (100 : ℚ)) * rotation_speed : ℚ) = 0 by ring,
      show ((100 - (0 : ℚ)) * rotation_speed : ℚ) = 1 / 2 by norm_num [rotation_speed],
      Rat.cast_zero, angleAxisY_zero, one_mul,
      qnormalize_of_norm_one _ (by
        rw [norm_mul, norm_angleAxisX, norm_angleAxisY, mul_one])]
    norm_num
  rw [hA, hB]
  intro heq
  have hs : 0 < Real.sin ((1 : ℝ) / 2 / 2) := by
    apply Real.sin_pos_of_pos_of_lt_pi
    · norm_num
    · have := Real.pi_gt_three
      linarith
  have hk := congrArg Quaternion.imK heq
  simp only [angleAxisY, angleAxisX, Quaternion.mul_imK] at hk
  nlinarith [hs]

/-- Claim C2 (amended): the final orientation is not invariant to event
chunking in general — yaw and pitch increments do not commute (see the
counterexample) — but for a purely horizontal drag it is: the final
orientation equals the yaw of `(total horizontal delta) * sensitivity`
composed onto the starting orientation, so it depends only on the total
pixel delta, however the drag is chunked. -/
theorem C2_amended_horizontal_invariance (x0 y0 z : ℚ) (r : Quaternion ℝ)
    (hr : ‖r‖ = 1) (xs : List ℚ) :
    (applyEvents ⟨true, false, (x0, y0), r, z⟩
        (xs.map (fun x => Event.cursor_pos x y0))).rotation =
      angleAxisY (((xs.getLastD x0 - x0) * rotation_speed : ℚ) : ℝ) * r :=
  horizontal_drag_rotation y0 z xs x0 r hr

/-- Witness for the amended C2: a one-chunk horizontal drag of +100 px. -/
theorem C2_amended_witness :
    ‖(1 : Quaternion ℝ)‖ = 1 ∧
      (applyEvents ⟨true, false, (0, 0), 1, 15 / 4⟩
          (([100] : List ℚ).map (fun x => Event.cursor_pos x 0))).rotation =
        angleAxisY (((([100] : List ℚ).getLastD 0 - 0) * rotation_speed : ℚ) : ℝ) * 1 :=
  ⟨norm_one, C2_amended_horizontal_invariance 0 0 (15 / 4) 1 norm_one [100]⟩

end Viewer
